import Mathlib

/-!
Verification of the DependencyChecker CLI (src/index.js) against its
specification.  The JavaScript program is shallowly embedded: each method of
the `DependencyChecker` class becomes a Lean function over explicit inputs
(the depcheck result, the parsed lockfile tree, external-command outcomes,
JSON-parse functions), and the claims of the specification are proved as
theorems about those functions.  Definitions come first, then the theorems.
-/

set_option maxHeartbeats 1600000

/-! ## Definitions: health score engine
(src/index.js, `calculateHealthScore`, lines 266-318) -/

/-- The per-category totals read by `calculateHealthScore`, as assembled by
`getProjectStats` (src/index.js lines 216-263): `unusedTotal` is
`unused.dependencies.length + unused.devDependencies.length`,
`outdatedTotal` is the number of keys of the outdated report,
`vulnerabilitiesTotal` the number of keys of `vulnerabilities.vulnerabilities`,
`duplicatesTotal` the number of duplicate entries, and `missingTotal` the
number of keys of the missing map. -/
structure StatsView where
  unusedTotal : Nat
  outdatedTotal : Nat
  vulnerabilitiesTotal : Nat
  duplicatesTotal : Nat
  missingTotal : Nat

/-- Deduction of the unused-dependencies block of `calculateHealthScore`
(lines 272-277): `if (stats.unused.total > 0) score -= Math.min(30, stats.unused.total * 3)`. -/
def unusedPenalty (n : Nat) : Int := if 0 < n then min 30 ((n : Int) * 3) else 0

/-- Deduction of the outdated block (lines 280-285): `Math.min(25, total * 2)` when positive. -/
def outdatedPenalty (n : Nat) : Int := if 0 < n then min 25 ((n : Int) * 2) else 0

/-- Deduction of the vulnerabilities block (lines 288-293): `Math.min(35, total * 5)` when positive. -/
def vulnerabilitiesPenalty (n : Nat) : Int := if 0 < n then min 35 ((n : Int) * 5) else 0

/-- Deduction of the duplicates block (lines 296-301): `Math.min(15, total * 2)` when positive. -/
def duplicatesPenalty (n : Nat) : Int := if 0 < n then min 15 ((n : Int) * 2) else 0

/-- Deduction of the missing block (lines 304-309): `Math.min(20, total * 4)` when positive. -/
def missingPenalty (n : Nat) : Int := if 0 < n then min 20 ((n : Int) * 4) else 0

/-- Result of `calculateHealthScore`: the clamped score plus the issue and
suggestion strings (the `stats` field of the JavaScript result is the input
and is not repeated here). -/
structure HealthScore where
  score : Int
  issues : List String
  suggestions : List String

/-- Shallow embedding of `calculateHealthScore` (src/index.js lines 266-318).
The JavaScript starts from `score = 100`, subtracts each category's capped
penalty inside its `if` block, appends one issue and one suggestion string per
non-empty category, and returns `Math.max(0, Math.round(score))`.  Since the
running score is an exact integer, `Math.round` is the identity and is
omitted. -/
def calculateHealthScore (stats : StatsView) : HealthScore :=
  { score := max 0 (100 - unusedPenalty stats.unusedTotal
      - outdatedPenalty stats.outdatedTotal
      - vulnerabilitiesPenalty stats.vulnerabilitiesTotal
      - duplicatesPenalty stats.duplicatesTotal
      - missingPenalty stats.missingTotal),
    issues :=
      (if 0 < stats.unusedTotal then
        [toString stats.unusedTotal ++ " unused dependencies"] else []) ++
      (if 0 < stats.outdatedTotal then
        [toString stats.outdatedTotal ++ " outdated dependencies"] else []) ++
      (if 0 < stats.vulnerabilitiesTotal then
        [toString stats.vulnerabilitiesTotal ++ " security vulnerabilities"] else []) ++
      (if 0 < stats.duplicatesTotal then
        [toString stats.duplicatesTotal ++ " duplicate packages"] else []) ++
      (if 0 < stats.missingTotal then
        [toString stats.missingTotal ++ " missing dependencies"] else []),
    suggestions :=
      (if 0 < stats.unusedTotal then
        ["Run \"dependency-cli fix --unused\" to remove unused packages"] else []) ++
      (if 0 < stats.outdatedTotal then
        ["Run \"dependency-cli fix --outdated\" to update packages"] else []) ++
      (if 0 < stats.vulnerabilitiesTotal then
        ["Run \"dependency-cli fix --vulnerabilities\" to fix security issues"] else []) ++
      (if 0 < stats.duplicatesTotal then
        ["Run \"dependency-cli fix --duplicates\" to dedupe packages"] else []) ++
      (if 0 < stats.missingTotal then
        ["Install missing dependencies manually"] else []) }

/-! ## Definitions: registry query adapter
(src/index.js, `checkOutdated` lines 121-143, `checkVulnerabilities`
lines 145-170)

`execSync` either returns the command's stdout (exit code 0) or throws an
error object that may carry the captured stdout of the failed command.  JSON
parsing (`JSON.parse`) either yields a value or throws; it is embedded as a
function into `Option`. -/

/-- Outcome of an `execSync` invocation: `success stdout`, or `failure` with
the stdout captured on the thrown error object (`none` when the error carries
no stdout property). -/
inductive ExecOutcome where
  | success (stdout : String)
  | failure (stdout : Option String)

/-- One value of the `npm outdated --json` map: current, wanted and latest
version strings. -/
structure OutdatedInfo where
  current : String
  wanted : String
  latest : String
deriving DecidableEq

/-- The statement `delete outdated.chalk` (lines 127 and 135): remove the
entry whose key is exactly `"chalk"` from the parsed object. -/
def deleteChalk (m : List (String × OutdatedInfo)) : List (String × OutdatedInfo) :=
  m.filter (fun p => p.1 != "chalk")

/-- Shallow embedding of `checkOutdated` (lines 121-143).  `parseJson` embeds
`JSON.parse` on the outdated map shape.  On the success path a parse failure
falls into the catch block whose error has no stdout, returning `{}`; on the
failure path the catch block parses `error.stdout` when it is truthy (a
non-empty string) and returns `{}` otherwise.  All paths are caught, so the
function is total and never raises. -/
def checkOutdated (exec : ExecOutcome)
    (parseJson : String → Option (List (String × OutdatedInfo))) :
    List (String × OutdatedInfo) :=
  match exec with
  | .success out =>
    match parseJson out with
    | some outdated => deleteChalk outdated
    | none => []
  | .failure stdoutOpt =>
    match stdoutOpt with
    | some out =>
      if out = "" then []
      else
        match parseJson out with
        | some outdated => deleteChalk outdated
        | none => []
    | none => []

/-- Parsed shape of `npm audit --json`: the `vulnerabilities` and `metadata`
fields may each be absent (`audit.vulnerabilities || {}`).  Vulnerability
details and metadata values are opaque to the program and embedded as
strings. -/
structure AuditJson where
  vulnerabilities : Option (List (String × String))
  metadata : Option (List (String × String))

/-- Result shape of `checkVulnerabilities`: always an object with both
fields present, defaulted to empty maps. -/
structure AuditReport where
  vulnerabilities : List (String × String)
  metadata : List (String × String)
deriving DecidableEq

/-- Shallow embedding of `checkVulnerabilities` (lines 145-170), with the same
`execSync`/`JSON.parse`/catch structure as `checkOutdated` but no filtering:
absent `vulnerabilities` or `metadata` fields default to `{}`. -/
def checkVulnerabilities (exec : ExecOutcome)
    (parseJson : String → Option AuditJson) : AuditReport :=
  match exec with
  | .success out =>
    match parseJson out with
    | some audit => ⟨audit.vulnerabilities.getD [], audit.metadata.getD []⟩
    | none => ⟨[], []⟩
  | .failure stdoutOpt =>
    match stdoutOpt with
    | some out =>
      if out = "" then ⟨[], []⟩
      else
        match parseJson out with
        | some audit => ⟨audit.vulnerabilities.getD [], audit.metadata.getD []⟩
        | none => ⟨[], []⟩
    | none => ⟨[], []⟩

/-! ## Definitions: usage scanner adapter and fix orchestrator
(src/index.js, `checkUnused` lines 84-115, `removeUnused` lines 367-401,
`fixIssues` lines 320-365) -/

/-- Character-list prefix test, used to embed JavaScript
`String.prototype.includes`. -/
def leadMatch : List Char → List Char → Bool
  | [], _ => true
  | _ :: _, [] => false
  | a :: as, b :: bs => a == b && leadMatch as bs

/-- Substring search over character lists. -/
def hasSub (pat : List Char) : List Char → Bool
  | [] => leadMatch pat []
  | c :: rest => leadMatch pat (c :: rest) || hasSub pat rest

/-- Embedding of JavaScript `dep.includes(pat)`: `pat` occurs as a contiguous
substring of `dep`. -/
def strIncludes (dep pat : String) : Bool :=
  hasSub pat.data dep.data

/-- The built-in protected-package set of the `DependencyChecker` constructor
(src/index.js lines 45-57). -/
def builtinProtectedPackages : List String :=
  ["commander", "chalk", "depcheck", "lodash",
   "react", "react-dom", "next", "vue", "nuxt",
   "express", "fastify", "koa",
   "typescript", "node", "@types/node",
   "webpack", "vite", "rollup", "parcel",
   "jest", "mocha", "vitest", "cypress",
   "eslint", "prettier", "husky", "lint-staged",
   "@vitejs/plugin-react", "@vitejs/plugin-react-refresh",
   "gsap", "@gsap/react"]

/-- `getPackageInfo` (lines 62-65) adds the user-declared
`dependencyChecker.protectedPackages` entries of package.json to the built-in
set. -/
def mkProtectedPackages (userProtected : List String) : List String :=
  builtinProtectedPackages ++ userProtected

/-- Result of the external depcheck scanner as consumed by `checkUnused`:
the unused production and dev dependency names, and the missing map
(package name to referencing files).  The `using` map is not read by any
claim-relevant code path and is omitted. -/
structure DepcheckResult where
  dependencies : List String
  devDependencies : List String
  missing : List (String × List String)
deriving DecidableEq

/-- The per-dependency predicate of the two `filter` callbacks of
`checkUnused` (lines 88-92 and 94-98): a dependency is safe to report and
remove unless it is protected, or starts with `"@types/"`, or contains
`"eslint"` or `"babel"`. -/
def isSafeDep (prot : List String) (dep : String) : Bool :=
  if prot.contains dep then false
  else if dep.startsWith "@types/" || strIncludes dep "eslint" || strIncludes dep "babel" then
    false
  else true

/-- The value returned by `checkUnused` (lines 107-115): safe unused lists,
the missing map passed through, and the protected-but-unused advisory
lists. -/
structure UnusedReport where
  dependencies : List String
  devDependencies : List String
  missing : List (String × List String)
  protectedDependencies : List String
  protectedDevDependencies : List String
deriving DecidableEq

/-- Shallow embedding of `checkUnused` (lines 84-115) applied to a depcheck
result.  The `potentiallyDynamic` block (lines 100-106) only prints an
advisory and does not change the returned value. -/
def checkUnused (prot : List String) (result : DepcheckResult) : UnusedReport :=
  { dependencies := result.dependencies.filter (fun dep => isSafeDep prot dep),
    devDependencies := result.devDependencies.filter (fun dep => isSafeDep prot dep),
    missing := result.missing,
    protectedDependencies := result.dependencies.filter (fun dep => prot.contains dep),
    protectedDevDependencies := result.devDependencies.filter (fun dep => prot.contains dep) }

/-- The batching loop of `removeUnused` (lines 386-394):
`for (let i = 0; i < allUnused.length; i += batchSize) batch = slice(i, i + 10)`
with `batchSize = 10`, expressed by batch index `k` (so `i = 10 * k` and the
loop runs while `10 * k < length`, i.e. for `k < ⌈length / 10⌉`). -/
def uninstallBatches (l : List String) : List (List String) :=
  (List.range ((l.length + 9) / 10)).map (fun k => (l.drop (10 * k)).take 10)

/-- Sequential execution of the uninstall batches: `exec` returns `none` on
success and `some message` when `execSync('npm uninstall ...')` throws.  The
first component lists the invocations actually issued (in order); the second
is the propagated error, if any.  A failing batch rethrows (line 392), so
later batches are never attempted, and nothing undoes earlier ones. -/
def runBatches (exec : List String → Option String) :
    List (List String) → List (List String) × Option String
  | [] => ([], none)
  | b :: rest =>
    match exec b with
    | none =>
      let p := runBatches exec rest
      (b :: p.1, p.2)
    | some e => ([b], some e)

/-- Shallow embedding of `removeUnused` (lines 367-401): recompute the unused
report, early-return with no invocation when the combined safe list is empty
(the protected-count message of lines 372-380 only prints), otherwise run the
batches.  The `force` flag only gates console output and never changes the
computation. -/
def removeUnused (prot : List String) (r : DepcheckResult) (force : Bool)
    (exec : List String → Option String) : List (List String) × Option String :=
  let unused := checkUnused prot r
  let allUnused := unused.dependencies ++ unused.devDependencies
  if allUnused.length = 0 then ([], none)
  else
    let _ := force
    runBatches exec (uninstallBatches allUnused)

/-- The options object of the `fix` command as consumed by `fixIssues`. -/
structure FixOptions where
  unused : Bool
  outdated : Bool
  vulnerabilities : Bool
  duplicates : Bool
  all : Bool
  force : Bool

/-- One entry of the `results` array of `fixIssues`: the category name,
whether its action succeeded, and the caught error message (absent on
success). -/
structure FixResult where
  type : String
  success : Bool
  error : Option String
deriving DecidableEq

/-- Shallow embedding of `fixIssues` (lines 320-365).  Each requested
category's action runs inside its own try/catch and appends one result entry;
the unused action is `removeUnused`, the other three are single external
commands whose outcomes are the `Option String` parameters (`none` success,
`some message` thrown). -/
def fixIssues (opts : FixOptions) (prot : List String) (r : DepcheckResult)
    (uninstallExec : List String → Option String)
    (updateErr auditFixErr dedupeErr : Option String) : List FixResult :=
  (if opts.all || opts.unused then
    [{ type := "unused",
       success := (removeUnused prot r opts.force uninstallExec).2.isNone,
       error := (removeUnused prot r opts.force uninstallExec).2 }]
   else []) ++
  (if opts.all || opts.outdated then
    [{ type := "outdated", success := updateErr.isNone, error := updateErr }]
   else []) ++
  (if opts.all || opts.vulnerabilities then
    [{ type := "vulnerabilities", success := auditFixErr.isNone, error := auditFixErr }]
   else []) ++
  (if opts.all || opts.duplicates then
    [{ type := "duplicates", success := dedupeErr.isNone, error := dedupeErr }]
   else [])

/-- The four fix categories, in the fixed order `fixIssues` attempts them. -/
inductive FixCategory where
  | unused
  | outdated
  | vulnerabilities
  | duplicates
deriving DecidableEq

/-- Name under which each category is reported. -/
def categoryName : FixCategory → String
  | .unused => "unused"
  | .outdated => "outdated"
  | .vulnerabilities => "vulnerabilities"
  | .duplicates => "duplicates"

/-- The categories whose actions `fixIssues` attempts: each explicitly
requested category, or all four when the `all` flag is set. -/
def requestedCategories (opts : FixOptions) : List FixCategory :=
  (if opts.all || opts.unused then [.unused] else []) ++
  (if opts.all || opts.outdated then [.outdated] else []) ++
  (if opts.all || opts.vulnerabilities then [.vulnerabilities] else []) ++
  (if opts.all || opts.duplicates then [.duplicates] else [])

/-- Outcome of one category's remediation action. -/
def categoryOutcome (opts : FixOptions) (prot : List String) (r : DepcheckResult)
    (uninstallExec : List String → Option String)
    (updateErr auditFixErr dedupeErr : Option String) : FixCategory → Option String
  | .unused => (removeUnused prot r opts.force uninstallExec).2
  | .outdated => updateErr
  | .vulnerabilities => auditFixErr
  | .duplicates => dedupeErr

/-- Sample combined unused list of 23 packages for the C5 witness. -/
def samplePackages : List String :=
  ["a1", "a2", "a3", "a4", "a5", "a6", "a7", "a8", "a9", "a10",
   "b1", "b2", "b3", "b4", "b5", "b6", "b7", "b8", "b9", "b10",
   "c1", "c2", "c3"]

/-- Uninstall runner for the C5 witness: the batch containing `b1` (the
second batch) throws. -/
def sampleExec : List String → Option String :=
  fun b => if b.contains "b1" then some "boom" else none

/-- First batch of the sample list. -/
def batchA : List String := ["a1", "a2", "a3", "a4", "a5", "a6", "a7", "a8", "a9", "a10"]

/-- Second batch of the sample list (the failing one). -/
def batchB : List String := ["b1", "b2", "b3", "b4", "b5", "b6", "b7", "b8", "b9", "b10"]

/-- Third batch of the sample list, never attempted. -/
def batchC : List String := ["c1", "c2", "c3"]

/-! ## Definitions: lock tree duplicate scanner
(src/index.js, `findDuplicates`, lines 172-214)

The parsed lockfile is a nested tree: each dependencies object maps a package
name to an entry with an optional `version` string and an optional nested
`dependencies` object. -/

/-- One entry of a lockfile dependencies object: an optional `version` field
and an optional nested `dependencies` object (absent field modelled as
`none`). -/
inductive DepInfo : Type where
  | mk (version : Option String) (dependencies : Option (List (String × DepInfo)))

/-- The mutable state of the `scanDeps` walk: the insertion-ordered
`versions` name-to-distinct-versions map (a JavaScript `Map` of `Set`s) and
the `totalPackages` counter. -/
structure ScanState where
  versions : List (String × List String)
  total : Nat
deriving DecidableEq

/-- `versions.get(name).add(version)` with
`if (!versions.has(name)) versions.set(name, new Set())` (lines 190-194):
the `Map` keeps keys in insertion order and the `Set` keeps values in
insertion order, ignoring a value already present. -/
def insertVersion : List (String × List String) → String → String → List (String × List String)
  | [], name, v => [(name, [v])]
  | (n, l) :: rest, name, v =>
    if n = name then (n, if v ∈ l then l else l ++ [v]) :: rest
    else (n, l) :: insertVersion rest name v

/-- Shallow embedding of the recursive `scanDeps` walk (lines 185-201): for
each entry, when its `version` field is truthy (present and non-empty, since
the empty string is falsy in JavaScript), count it and record the
`(name, version)` pair; then recurse into the nested `dependencies` object
when present; then continue with the remaining entries. -/
def scanDeps : List (String × DepInfo) → ScanState → ScanState
  | [], st => st
  | (name, .mk ver odeps) :: rest, st =>
    let st1 :=
      match ver with
      | some v => if v = "" then st else ⟨insertVersion st.versions name v, st.total + 1⟩
      | none => st
    let st2 :=
      match odeps with
      | some ds => scanDeps ds st1
      | none => st1
    scanDeps rest st2

/-- One reported duplicate (lines 205-210): the package name, the distinct
versions in insertion order (`Array.from(versionSet)`), and their number
(`versionSet.size`). -/
structure DuplicateEntry where
  name : String
  versions : List String
  count : Nat
deriving DecidableEq

/-- Result of `findDuplicates`.  `totalPackages` is an `Option` because the
missing-lockfile branch (line 178) returns an object without that field
(JavaScript `undefined`). -/
structure DupScanResult where
  duplicates : List DuplicateEntry
  totalPackages : Option Nat
  lockFileExists : Bool
deriving DecidableEq

/-- The two tree shapes a parsed package-lock.json can carry: the flat
path-keyed `packages` map of lockfile v2/v3 or the legacy nested
`dependencies` object, either possibly absent. -/
structure LockData where
  packages : Option (List (String × DepInfo))
  dependencies : Option (List (String × DepInfo))

/-- The root selection `lockData.packages || lockData.dependencies`
(line 203): a present `packages` object wins, otherwise `dependencies`. -/
def lockRoot (lock : LockData) : Option (List (String × DepInfo)) :=
  match lock.packages with
  | some p => some p
  | none => lock.dependencies

/-- Shallow embedding of `findDuplicates` (lines 172-214).  The argument is
`none` when no package-lock.json exists (the `fs.access` check fails), in
which case the early return of line 178 produces
`{ duplicates: [], lockFileExists: false }` with no `totalPackages` field.
Otherwise the tree is walked (`scanDeps` checks `if (!deps) return`, so two
absent roots leave the state empty) and every name with more than one
distinct version is reported.  A lockfile that fails to parse throws and is
outside this result type. -/
def findDuplicates : Option LockData → DupScanResult
  | none => { duplicates := [], totalPackages := none, lockFileExists := false }
  | some lock =>
    let st :=
      match lockRoot lock with
      | some deps => scanDeps deps ⟨[], 0⟩
      | none => ⟨[], 0⟩
    { duplicates := (st.versions.filter (fun p => decide (1 < p.2.length))).map
        (fun p => ⟨p.1, p.2, p.2.length⟩),
      totalPackages := some st.total,
      lockFileExists := true }

/-- Specification-side flattening of the tree walk: the `(name, version)`
occurrences with truthy versions, in visit order (node before its subtree,
subtree before the following siblings). -/
def occList : List (String × DepInfo) → List (String × String)
  | [] => []
  | (name, .mk ver odeps) :: rest =>
    (match ver with
     | some v => if v = "" then [] else [(name, v)]
     | none => []) ++
    (match odeps with
     | some ds => occList ds
     | none => []) ++
    occList rest

/-- Folding all occurrences into a versions map, starting from `vs`. -/
def insertAll (vs : List (String × List String)) (occ : List (String × String)) :
    List (String × List String) :=
  occ.foldl (fun a p => insertVersion a p.1 p.2) vs

/-- Append a value to an accumulator unless already present (one `Set.add`
step). -/
def addDistinct (acc : List String) (v : String) : List String :=
  if v ∈ acc then acc else acc ++ [v]

/-- Merge values into an existing distinct list, keeping first occurrences. -/
def mergeInto (l : List String) (vs : List String) : List String :=
  vs.foldl addDistinct l

/-- The distinct values of a list in order of first occurrence. -/
def dedupKeepFirst (l : List String) : List String :=
  l.foldl addDistinct []

/-- All versions recorded for `name` in an occurrence list, in order. -/
def valuesOf (occ : List (String × String)) (name : String) : List String :=
  (occ.filter (fun p => p.1 == name)).map (fun p => p.2)

/-- Specification-side grouping, following the specification's words: one
entry per package name in order of first occurrence (`seen` lists the names
already grouped), carrying the distinct versions of that name in insertion
order. -/
def groupVersions : List (String × String) → List String → List (String × List String)
  | [], _ => []
  | (n, v) :: rest, seen =>
    if n ∈ seen then groupVersions rest seen
    else (n, dedupKeepFirst (v :: valuesOf rest n)) :: groupVersions rest (seen ++ [n])

/-- The occurrence list of a whole lockfile. -/
def lockOcc (lock : LockData) : List (String × String) :=
  match lockRoot lock with
  | some deps => occList deps
  | none => []

/-- Concrete scenario B of the specification: lodash resolved to `4.17.20`
at two different nested tree positions and to `4.17.21` at a third. -/
def scenarioB : LockData :=
  ⟨none,
   some [("a", .mk (some "1.0.0") (some [("lodash", .mk (some "4.17.20") none)])),
         ("b", .mk (some "1.0.0") (some [("lodash", .mk (some "4.17.20") none)])),
         ("lodash", .mk (some "4.17.21") none)]⟩

/-- Concrete tree for C10: a versionless wrapper node whose subtree holds a
versioned lodash, next to a top-level lodash with another version. -/
def scenarioNested : LockData :=
  ⟨some [("wrapper", .mk none (some [("lodash", .mk (some "4.17.20") none)])),
         ("lodash", .mk (some "4.17.21") none)],
   none⟩

/-! ## Helper lemmas -/

/-- Two duplicate-scan results agreeing on every field are equal. -/
theorem DupScanResult.ext2 (x y : DupScanResult) (h1 : x.duplicates = y.duplicates)
    (h2 : x.totalPackages = y.totalPackages) (h3 : x.lockFileExists = y.lockFileExists) :
    x = y := by
  cases x; cases y; simp_all

/-- Folding one occurrence is one `insertVersion` step. -/
theorem insertAll_cons (vs : List (String × List String)) (n v : String)
    (rest : List (String × String)) :
    insertAll vs ((n, v) :: rest) = insertAll (insertVersion vs n v) rest := rfl

/-- Folding a concatenation folds the parts in order. -/
theorem insertAll_append (vs : List (String × List String)) (a b : List (String × String)) :
    insertAll vs (a ++ b) = insertAll (insertAll vs a) b := by
  simp [insertAll, List.foldl_append]

/-- The stateful walk is the fold of the occurrence list: `scanDeps` inserts
exactly the occurrences of the tree into the versions map, in visit order,
and adds their number to the counter. -/
theorem scanDeps_occList : ∀ (deps : List (String × DepInfo)) (st : ScanState),
    scanDeps deps st = ⟨insertAll st.versions (occList deps), st.total + (occList deps).length⟩
  | [], st => by simp [scanDeps, occList, insertAll]
  | (name, .mk ver none) :: rest, st => by
    have hrest := scanDeps_occList rest
    rcases ver with _ | v
    · simp only [scanDeps, occList]
      rw [hrest st]
      simp
    · by_cases hv : v = ""
      · simp only [scanDeps, occList, hv, if_true]
        rw [hrest st]
        simp
      · simp only [scanDeps, occList, if_neg hv]
        rw [hrest ⟨insertVersion st.versions name v, st.total + 1⟩]
        simp [insertAll_cons, insertAll]
        omega
  | (name, .mk ver (some ds)) :: rest, st => by
    have hds := scanDeps_occList ds
    have hrest := scanDeps_occList rest
    rcases ver with _ | v
    · simp only [scanDeps, occList]
      rw [hds st, hrest _]
      simp [insertAll_append]
      omega
    · by_cases hv : v = ""
      · simp only [scanDeps, occList, hv, if_true]
        rw [hds st, hrest _]
        simp [insertAll_append]
        omega
      · simp only [scanDeps, occList, if_neg hv]
        rw [hds ⟨insertVersion st.versions name v, st.total + 1⟩, hrest _]
        simp [insertAll_append, insertAll_cons]
        omega

/-- Inserting a new name appends a fresh singleton entry at the end. -/
theorem insertVersion_not_mem (vs : List (String × List String)) (n v : String)
    (hn : n ∉ vs.map Prod.fst) : insertVersion vs n v = vs ++ [(n, [v])] := by
  induction vs with
  | nil => rfl
  | cons e rest ih =>
    rcases e with ⟨m, l⟩
    simp only [List.map_cons, List.mem_cons] at hn
    push_neg at hn
    simp only [insertVersion, List.cons_append]
    rw [if_neg (fun h => hn.1 h.symm)]
    rw [ih hn.2]

/-- Inserting a present name updates that name's entry in place. -/
theorem insertVersion_mem (vs : List (String × List String)) (n v : String)
    (hnd : (vs.map Prod.fst).Nodup) (hn : n ∈ vs.map Prod.fst) :
    insertVersion vs n v
      = vs.map (fun e => if e.1 = n then (e.1, addDistinct e.2 v) else e) := by
  induction vs with
  | nil => simp at hn
  | cons e rest ih =>
    rcases e with ⟨m, l⟩
    simp only [List.map_cons, List.nodup_cons] at hnd
    simp only [List.map_cons, List.mem_cons] at hn
    by_cases hm : m = n
    · subst hm
      have hid : rest.map (fun e => if e.1 = m then (e.1, addDistinct e.2 v) else e) = rest := by
        conv_rhs => rw [← List.map_id rest]
        refine List.map_congr_left (fun e he => ?_)
        have hne : e.1 ≠ m := fun hh => hnd.1 (hh ▸ List.mem_map.mpr ⟨e, he, rfl⟩)
        simp [hne]
      simp only [insertVersion, List.map_cons, hid]
      simp [addDistinct]
    · have hn2 : n ∈ rest.map Prod.fst := by
        rcases hn with h | h
        · exact absurd h.symm hm
        · exact h
      simp only [insertVersion, List.map_cons]
      rw [if_neg hm, if_neg hm, ih hnd.2 hn2]

/-- Deduplicating a cons seeds the merge with its head. -/
theorem dedupKeepFirst_cons (v : String) (xs : List String) :
    dedupKeepFirst (v :: xs) = mergeInto [v] xs := by
  simp [dedupKeepFirst, mergeInto, addDistinct]

/-- One merge step. -/
theorem mergeInto_cons (l : List String) (v : String) (xs : List String) :
    mergeInto l (v :: xs) = mergeInto (addDistinct l v) xs := rfl

/-- Values of a name in a cons occurrence list. -/
theorem valuesOf_cons (n v m : String) (rest : List (String × String)) :
    valuesOf ((n, v) :: rest) m = if n = m then v :: valuesOf rest m else valuesOf rest m := by
  by_cases h : n = m <;> simp [valuesOf, List.filter_cons, h]

/-- Folding occurrences into a map with distinct keys merges each key's
values into its entry and appends one grouped entry per new name, in first
occurrence order. -/
theorem insertAll_eq_groups (occ : List (String × String)) :
    ∀ vs : List (String × List String), (vs.map Prod.fst).Nodup →
      insertAll vs occ
        = vs.map (fun e => (e.1, mergeInto e.2 (valuesOf occ e.1)))
          ++ groupVersions occ (vs.map Prod.fst) := by
  induction occ with
  | nil =>
    intro vs h
    simp [insertAll, groupVersions, valuesOf, mergeInto]
  | cons p rest ih =>
    intro vs hnd
    rcases p with ⟨n, v⟩
    rw [insertAll_cons]
    by_cases hn : n ∈ vs.map Prod.fst
    · rw [insertVersion_mem vs n v hnd hn]
      have hnames : ((vs.map (fun e => if e.1 = n then (e.1, addDistinct e.2 v) else e)).map
          Prod.fst) = vs.map Prod.fst := by
        rw [List.map_map]
        refine List.map_congr_left (fun e _ => ?_)
        by_cases he : e.1 = n <;> simp [he]
      rw [ih _ (hnames ▸ hnd), hnames]
      congr 1
      · rw [List.map_map]
        refine List.map_congr_left (fun e _ => ?_)
        by_cases he : e.1 = n
        · simp [Function.comp_apply, he, valuesOf_cons, mergeInto_cons]
        · simp [Function.comp_apply, he, valuesOf_cons, Ne.symm he]
      · simp [groupVersions, hn]
    · rw [insertVersion_not_mem vs n v hn]
      have hnames : ((vs ++ [(n, [v])]).map Prod.fst) = vs.map Prod.fst ++ [n] := by simp
      have hdisj : (vs.map Prod.fst).Disjoint [n] := by
        intro x hx hx2
        rw [List.mem_singleton] at hx2
        exact hn (hx2 ▸ hx)
      have hnd2 : (((vs ++ [(n, [v])]).map Prod.fst)).Nodup := by
        rw [hnames, List.nodup_append]
        exact ⟨hnd, List.nodup_singleton n, hdisj⟩
      rw [ih _ hnd2, hnames]
      simp only [List.map_append, List.map_cons, List.map_nil]
      simp only [groupVersions]
      rw [if_neg hn]
      have hmaps : vs.map (fun e => (e.1, mergeInto e.2 (valuesOf rest e.1)))
          = vs.map (fun e => (e.1, mergeInto e.2 (valuesOf ((n, v) :: rest) e.1))) := by
        refine List.map_congr_left (fun e he => ?_)
        have hne : n ≠ e.1 := fun hh => hn (hh ▸ List.mem_map.mpr ⟨e, he, rfl⟩)
        rw [valuesOf_cons, if_neg hne]
      rw [hmaps, dedupKeepFirst_cons]
      simp

/-- Evaluation of `findDuplicates` on an existing lockfile through the
specification-side grouping: the reported duplicates are the first-occurrence
groups with more than one distinct version, and `totalPackages` counts all
truthy-version occurrences. -/
theorem findDuplicates_eval (lock : LockData) :
    findDuplicates (some lock)
      = { duplicates := ((groupVersions (lockOcc lock) []).filter
            (fun p => decide (1 < p.2.length))).map (fun p => ⟨p.1, p.2, p.2.length⟩),
          totalPackages := some (lockOcc lock).length,
          lockFileExists := true } := by
  have hgr : ∀ occ : List (String × String), insertAll [] occ = groupVersions occ [] := by
    intro occ
    simpa using insertAll_eq_groups occ [] (by simp)
  have hscan : (match lockRoot lock with
      | some deps => scanDeps deps ⟨[], 0⟩
      | none => (⟨[], 0⟩ : ScanState))
      = ⟨groupVersions (lockOcc lock) [], (lockOcc lock).length⟩ := by
    rcases h : lockRoot lock with _ | deps
    · simp [lockOcc, h, ← hgr, insertAll]
    · simp [lockOcc, h, scanDeps_occList, hgr]
  simp [findDuplicates, hscan]

/-- Membership in an executed batch implies membership in the batch list. -/
theorem runBatches_mem (exec : List String → Option String)
    (bs : List (List String)) (b : List String)
    (hb : b ∈ (runBatches exec bs).1) : b ∈ bs := by
  revert hb
  induction bs with
  | nil => intro hb; simp [runBatches] at hb
  | cons c rest ih =>
    intro hb
    rcases hx : exec c with _ | e
    · simp only [runBatches, hx, List.mem_cons] at hb
      rcases hb with rfl | hb
      · exact List.mem_cons_self b rest
      · exact List.mem_cons_of_mem c (ih hb)
    · simp only [runBatches, hx, List.mem_singleton] at hb
      exact hb ▸ List.mem_cons_self c rest

/-- Membership in an uninstall batch implies membership in the combined
unused list. -/
theorem uninstallBatches_mem (l : List String) (b : List String) (x : String)
    (hb : b ∈ uninstallBatches l) (hx : x ∈ b) : x ∈ l := by
  simp only [uninstallBatches, List.mem_map, List.mem_range] at hb
  obtain ⟨k, -, rfl⟩ := hb
  exact List.drop_subset _ _ (List.take_subset _ _ hx)

/-- Unfolding of the batching loop: a non-empty list yields its first ten
packages as the first batch followed by the batches of the remainder. -/
theorem uninstallBatches_cons (l : List String) (hl : l ≠ []) :
    uninstallBatches l = l.take 10 :: uninstallBatches (l.drop 10) := by
  have hpos : 0 < l.length := List.length_pos.mpr hl
  have hstep : (l.length + 9) / 10 = (l.length - 10 + 9) / 10 + 1 := by omega
  unfold uninstallBatches
  rw [List.length_drop, hstep, List.range_succ_eq_map]
  simp only [List.map_cons, Nat.mul_zero, List.drop_zero, List.map_map]
  congr 1
  refine List.map_congr_left (fun k _ => ?_)
  simp only [Function.comp_apply, List.drop_drop, Nat.mul_succ, Nat.add_comm]

/-- The batches partition the combined unused list: concatenating them in
order gives the list back. -/
theorem uninstallBatches_flatten (l : List String) : (uninstallBatches l).flatten = l := by
  suffices h : ∀ n (l : List String), l.length ≤ n → (uninstallBatches l).flatten = l from
    h l.length l le_rfl
  intro n
  induction n with
  | zero =>
    intro l hl
    have : l = [] := List.length_eq_zero.mp (Nat.le_zero.mp hl)
    subst this; rfl
  | succ n ih =>
    intro l hl
    by_cases hl0 : l = []
    · subst hl0; rfl
    · have hpos : 0 < l.length := List.length_pos.mpr hl0
      have hrec : (l.drop 10).length ≤ n := by
        rw [List.length_drop]; omega
      rw [uninstallBatches_cons l hl0, List.flatten_cons, ih _ hrec, List.take_append_drop]

/-- A failing batch stops the loop: batches before the failure are executed
and kept, the failing batch is the last invocation, and its error is
propagated. -/
theorem runBatches_append_fail (exec : List String → Option String)
    (bs1 bs2 : List (List String)) (bf : List String) (msg : String)
    (hok : ∀ b, b ∈ bs1 → exec b = none) (hfail : exec bf = some msg) :
    runBatches exec (bs1 ++ bf :: bs2) = (bs1 ++ [bf], some msg) := by
  induction bs1 with
  | nil => simp [runBatches, hfail]
  | cons c rest ih =>
    have hc : exec c = none := hok c (List.mem_cons_self c rest)
    have ih' := ih (fun b hb => hok b (List.mem_cons_of_mem c hb))
    simp [runBatches, hc, ih']

/-! ## Claim theorems -/

/-- C1: for every stats report, `calculateHealthScore` returns
`max(0, 100 − Σ capped penalties)` where each category's penalty is its item
count times its per-item weight capped independently (unused 3/30,
outdated 2/25, vulnerabilities 5/35, duplicates 2/15, missing 4/20), and the
result is always an integer between 0 and 100 inclusive (`Math.round` is the
identity on this exact integer). -/
theorem calculateHealthScore_formula (s : StatsView) :
    (calculateHealthScore s).score =
      max 0 (100 - (min 30 ((s.unusedTotal : Int) * 3) + min 25 ((s.outdatedTotal : Int) * 2)
        + min 35 ((s.vulnerabilitiesTotal : Int) * 5) + min 15 ((s.duplicatesTotal : Int) * 2)
        + min 20 ((s.missingTotal : Int) * 4)))
    ∧ 0 ≤ (calculateHealthScore s).score ∧ (calculateHealthScore s).score ≤ 100 := by
  simp only [calculateHealthScore, unusedPenalty, outdatedPenalty, vulnerabilitiesPenalty,
    duplicatesPenalty, missingPenalty]
  refine ⟨?_, ?_, ?_⟩ <;> split_ifs <;> omega

/-- C9: for every category and every item count `n`, the penalty deducted by
`calculateHealthScore` is `min(cap, n * weight)` and hence never exceeds the
cap; in particular 100 unused items deduct exactly 30 (score 70), not 300. -/
theorem penalty_capped (n : Nat) :
    (unusedPenalty n = min 30 ((n : Int) * 3) ∧ unusedPenalty n ≤ 30)
    ∧ (outdatedPenalty n = min 25 ((n : Int) * 2) ∧ outdatedPenalty n ≤ 25)
    ∧ (vulnerabilitiesPenalty n = min 35 ((n : Int) * 5) ∧ vulnerabilitiesPenalty n ≤ 35)
    ∧ (duplicatesPenalty n = min 15 ((n : Int) * 2) ∧ duplicatesPenalty n ≤ 15)
    ∧ (missingPenalty n = min 20 ((n : Int) * 4) ∧ missingPenalty n ≤ 20)
    ∧ unusedPenalty 100 = 30
    ∧ (calculateHealthScore ⟨100, 0, 0, 0, 0⟩).score = 70 := by
  simp only [calculateHealthScore, unusedPenalty, outdatedPenalty, vulnerabilitiesPenalty,
    duplicatesPenalty, missingPenalty]
  refine ⟨⟨?_, ?_⟩, ⟨?_, ?_⟩, ⟨?_, ?_⟩, ⟨?_, ?_⟩, ⟨?_, ?_⟩, ?_, ?_⟩ <;>
    split_ifs <;> omega

/-- C4: both adapters treat a non-zero exit status as non-fatal.  When the
failed command still produced stdout, that output is parsed and the parsed
result is returned (`checkOutdated` applying its fixed chalk exclusion,
`checkVulnerabilities` defaulting absent fields); the empty fallback is
returned only when parsing fails or no output was produced.  Both functions
are total over every outcome, i.e. they never raise. -/
theorem registry_query_nonfatal
    (po : String → Option (List (String × OutdatedInfo)))
    (pv : String → Option AuditJson)
    (out : String) (m : List (String × OutdatedInfo)) (a : AuditJson)
    (hout : out ≠ "") :
    (po out = some m → checkOutdated (.failure (some out)) po = deleteChalk m)
    ∧ (po out = none → checkOutdated (.failure (some out)) po = [])
    ∧ checkOutdated (.failure none) po = []
    ∧ (pv out = some a →
        checkVulnerabilities (.failure (some out)) pv
          = ⟨a.vulnerabilities.getD [], a.metadata.getD []⟩)
    ∧ (pv out = none → checkVulnerabilities (.failure (some out)) pv = ⟨[], []⟩)
    ∧ checkVulnerabilities (.failure none) pv = ⟨[], []⟩ := by
  refine ⟨fun h => ?_, fun h => ?_, rfl, fun h => ?_, fun h => ?_, rfl⟩ <;>
    simp [checkOutdated, checkVulnerabilities, hout, h]

/-- Witness for C4 at a concrete failed command whose stdout parses to a
one-entry outdated map and to an audit object without metadata. -/
theorem registry_query_nonfatal_witness :
    (("out" : String) ≠ "")
    ∧ (((fun s => if s = "out" then some [("lodash", ⟨"4.17.20", "4.17.21", "4.17.21"⟩)]
          else none) : String → Option (List (String × OutdatedInfo))) "out"
            = some [("lodash", ⟨"4.17.20", "4.17.21", "4.17.21"⟩)] →
        checkOutdated (.failure (some "out"))
          (fun s => if s = "out" then some [("lodash", ⟨"4.17.20", "4.17.21", "4.17.21"⟩)]
            else none)
          = deleteChalk [("lodash", ⟨"4.17.20", "4.17.21", "4.17.21"⟩)])
    ∧ (((fun s => if s = "out" then some [("lodash", ⟨"4.17.20", "4.17.21", "4.17.21"⟩)]
          else none) : String → Option (List (String × OutdatedInfo))) "out" = none →
        checkOutdated (.failure (some "out"))
          (fun s => if s = "out" then some [("lodash", ⟨"4.17.20", "4.17.21", "4.17.21"⟩)]
            else none) = [])
    ∧ checkOutdated (.failure none)
        (fun s => if s = "out" then some [("lodash", ⟨"4.17.20", "4.17.21", "4.17.21"⟩)]
          else none) = []
    ∧ (((fun _ => some ⟨some [("minimist", "high")], none⟩) : String → Option AuditJson) "out"
          = some ⟨some [("minimist", "high")], none⟩ →
        checkVulnerabilities (.failure (some "out"))
          (fun _ => some ⟨some [("minimist", "high")], none⟩)
          = ⟨(some [("minimist", "high")] : Option (List (String × String))).getD [],
             (none : Option (List (String × String))).getD []⟩)
    ∧ (((fun _ => some ⟨some [("minimist", "high")], none⟩) : String → Option AuditJson) "out"
          = none →
        checkVulnerabilities (.failure (some "out"))
          (fun _ => some ⟨some [("minimist", "high")], none⟩) = ⟨[], []⟩)
    ∧ checkVulnerabilities (.failure none)
        (fun _ => some ⟨some [("minimist", "high")], none⟩) = ⟨[], []⟩ :=
  ⟨by decide,
   registry_query_nonfatal
     (fun s => if s = "out" then some [("lodash", ⟨"4.17.20", "4.17.21", "4.17.21"⟩)] else none)
     (fun _ => some ⟨some [("minimist", "high")], none⟩)
     "out" [("lodash", ⟨"4.17.20", "4.17.21", "4.17.21"⟩)]
     ⟨some [("minimist", "high")], none⟩ (by decide)⟩

/-- C8: `checkOutdated` removes the entry for the tool's own rendering library
(`chalk`) before returning, on every path; in particular when chalk is the
only package reported by `npm outdated --json`, the returned mapping is
empty. -/
theorem checkOutdated_excludes_chalk
    (exec : ExecOutcome)
    (parseJson : String → Option (List (String × OutdatedInfo))) :
    (checkOutdated exec parseJson).lookup "chalk" = none
    ∧ (∀ out : String, ∀ info : OutdatedInfo,
        checkOutdated (.success out) (fun _ => some [("chalk", info)]) = []) := by
  constructor
  · have hdel : ∀ m : List (String × OutdatedInfo), (deleteChalk m).lookup "chalk" = none := by
      intro m
      induction m with
      | nil => rfl
      | cons p rest ih =>
        rcases p with ⟨n, i⟩
        by_cases hp : n = "chalk"
        · subst hp
          simpa [deleteChalk, List.filter_cons] using ih
        · have h1 : (n != "chalk") = true := bne_iff_ne.mpr hp
          have h2 : ("chalk" == n) = false := beq_eq_false_iff_ne.mpr (Ne.symm hp)
          simp only [deleteChalk, List.filter_cons, h1, if_true]
          simp only [List.lookup, h2]
          simpa [deleteChalk] using ih
    cases exec with
    | success out =>
      cases hpo : parseJson out <;> simp [checkOutdated, hpo, hdel]
    | failure stdoutOpt =>
      cases stdoutOpt with
      | none => simp [checkOutdated]
      | some out =>
        by_cases hout : out = ""
        · simp [checkOutdated, hout]
        · cases hpo : parseJson out <;> simp [checkOutdated, hout, hpo, hdel]
  · intro out info
    simp [checkOutdated, deleteChalk]

/-- C3: a package that is in the protected set, or whose name starts with
`"@types/"` or contains `"eslint"` or `"babel"`, never appears in the
removable unused lists of `checkUnused`, is never passed to an uninstall
invocation by `removeUnused` (for every value of the `force` flag), and a
protected unused package appears in the protected advisory lists. -/
theorem protected_never_removed (prot : List String) (r : DepcheckResult)
    (dep : String) (force : Bool) (exec : List String → Option String)
    (h : prot.contains dep = true ∨ dep.startsWith "@types/" = true
      ∨ strIncludes dep "eslint" = true ∨ strIncludes dep "babel" = true) :
    dep ∉ (checkUnused prot r).dependencies
    ∧ dep ∉ (checkUnused prot r).devDependencies
    ∧ (∀ batch, batch ∈ (removeUnused prot r force exec).1 → dep ∉ batch)
    ∧ (prot.contains dep = true → dep ∈ r.dependencies →
        dep ∈ (checkUnused prot r).protectedDependencies)
    ∧ (prot.contains dep = true → dep ∈ r.devDependencies →
        dep ∈ (checkUnused prot r).protectedDevDependencies) := by
  have hsafe : isSafeDep prot dep = false := by
    unfold isSafeDep
    split_ifs with h1 h2
    · rfl
    · rfl
    · rcases h with h | h | h | h
      · exact absurd h h1
      · exact absurd (by simp [h]) h2
      · exact absurd (by simp [h]) h2
      · exact absurd (by simp [h]) h2
  have hdeps : dep ∉ (checkUnused prot r).dependencies := by
    simp [checkUnused, List.mem_filter, hsafe]
  have hdevs : dep ∉ (checkUnused prot r).devDependencies := by
    simp [checkUnused, List.mem_filter, hsafe]
  refine ⟨hdeps, hdevs, ?_, ?_, ?_⟩
  · intro batch hbatch hdep
    unfold removeUnused at hbatch
    by_cases hlen :
        ((checkUnused prot r).dependencies ++ (checkUnused prot r).devDependencies).length = 0
    · simp [hlen] at hbatch
    · simp only [hlen, if_false] at hbatch
      have hmem := uninstallBatches_mem _ _ _ (runBatches_mem _ _ _ hbatch) hdep
      rcases List.mem_append.mp hmem with hm | hm
      · exact hdeps hm
      · exact hdevs hm
  · intro hprot hmem
    simp only [checkUnused]
    exact List.mem_filter.mpr ⟨hmem, hprot⟩
  · intro hprot hmem
    simp only [checkUnused]
    exact List.mem_filter.mpr ⟨hmem, hprot⟩

/-- Witness for C3: the protected package `react`, flagged unused by the
scanner, is kept out of the removable lists and of every uninstall batch,
and appears in the protected advisory list. -/
theorem protected_never_removed_witness :
    ((["react", "lodash"] : List String).contains "react" = true
      ∨ ("react" : String).startsWith "@types/" = true
      ∨ strIncludes "react" "eslint" = true ∨ strIncludes "react" "babel" = true)
    ∧ ("react" ∉ (checkUnused ["react", "lodash"] ⟨["react", "moment"], ["left-pad"], []⟩).dependencies
    ∧ "react" ∉ (checkUnused ["react", "lodash"] ⟨["react", "moment"], ["left-pad"], []⟩).devDependencies
    ∧ (∀ batch,
        batch ∈ (removeUnused ["react", "lodash"] ⟨["react", "moment"], ["left-pad"], []⟩
          false (fun _ => none)).1 → "react" ∉ batch)
    ∧ ((["react", "lodash"] : List String).contains "react" = true →
        "react" ∈ (["react", "moment"] : List String) →
        "react" ∈ (checkUnused ["react", "lodash"]
          ⟨["react", "moment"], ["left-pad"], []⟩).protectedDependencies)
    ∧ ((["react", "lodash"] : List String).contains "react" = true →
        "react" ∈ (["left-pad"] : List String) →
        "react" ∈ (checkUnused ["react", "lodash"]
          ⟨["react", "moment"], ["left-pad"], []⟩).protectedDevDependencies)) :=
  ⟨Or.inl (by decide),
   protected_never_removed ["react", "lodash"] ⟨["react", "moment"], ["left-pad"], []⟩
     "react" false (fun _ => none) (Or.inl (by decide))⟩

/-- C5: `removeUnused` issues uninstall invocations in consecutive batches of
at most 10 packages (a list of 23 packages yields exactly 3 invocations of
sizes 10, 10, 3, and the batches concatenate back to the list); when a batch
fails, the earlier batches remain executed (not rolled back), no later batch
is attempted, the error propagates, and `fixIssues` reports the unused
category as failed with the underlying error message. -/
theorem removeUnused_batching
    (l : List String) (exec : List String → Option String)
    (bs1 bs2 : List (List String)) (bf : List String) (msg : String)
    (prot : List String) (r : DepcheckResult) (force : Bool)
    (u a d : Option String)
    (h23 : l.length = 23)
    (hok : ∀ b, b ∈ bs1 → exec b = none)
    (hfail : exec bf = some msg)
    (hbat : uninstallBatches ((checkUnused prot r).dependencies
      ++ (checkUnused prot r).devDependencies) = bs1 ++ bf :: bs2)
    (hne : ((checkUnused prot r).dependencies
      ++ (checkUnused prot r).devDependencies).length ≠ 0) :
    (uninstallBatches l).map List.length = [10, 10, 3]
    ∧ (uninstallBatches l).flatten = l
    ∧ (uninstallBatches l).all (fun b => decide (b.length ≤ 10)) = true
    ∧ removeUnused prot r force exec = (bs1 ++ [bf], some msg)
    ∧ fixIssues ⟨true, false, false, false, false, force⟩ prot r exec u a d
        = [⟨"unused", false, some msg⟩] := by
  have hrem : removeUnused prot r force exec = (bs1 ++ [bf], some msg) := by
    unfold removeUnused
    simp only [hne, if_false]
    rw [hbat]
    exact runBatches_append_fail exec bs1 bs2 bf msg hok hfail
  refine ⟨?_, uninstallBatches_flatten l, ?_, hrem, ?_⟩
  · have h3 : (l.length + 9) / 10 = 3 := by omega
    simp [uninstallBatches, h3, List.range_succ, List.length_take, List.length_drop, h23]
  · simp only [List.all_eq_true, decide_eq_true_eq]
    intro b hb
    simp only [uninstallBatches, List.mem_map, List.mem_range] at hb
    obtain ⟨k, -, rfl⟩ := hb
    simp [List.length_take]
  · simp [fixIssues, hrem]

/-- Witness for C5: 23 concrete packages, all safe, with the second batch
failing; the first batch runs, the third batch is never attempted, and the
unused category reports the failure. -/
theorem removeUnused_batching_witness :
    samplePackages.length = 23
    ∧ (∀ b, b ∈ [batchA] → sampleExec b = none)
    ∧ sampleExec batchB = some "boom"
    ∧ uninstallBatches ((checkUnused [] ⟨samplePackages, [], []⟩).dependencies
        ++ (checkUnused [] ⟨samplePackages, [], []⟩).devDependencies)
        = [batchA] ++ batchB :: [batchC]
    ∧ ((checkUnused [] ⟨samplePackages, [], []⟩).dependencies
        ++ (checkUnused [] ⟨samplePackages, [], []⟩).devDependencies).length ≠ 0
    ∧ ((uninstallBatches samplePackages).map List.length = [10, 10, 3]
    ∧ (uninstallBatches samplePackages).flatten = samplePackages
    ∧ (uninstallBatches samplePackages).all (fun b => decide (b.length ≤ 10)) = true
    ∧ removeUnused [] ⟨samplePackages, [], []⟩ false sampleExec
        = ([batchA] ++ [batchB], some "boom")
    ∧ fixIssues ⟨true, false, false, false, false, false⟩ [] ⟨samplePackages, [], []⟩
        sampleExec none none none = [⟨"unused", false, some "boom"⟩]) :=
  ⟨by decide, by decide, by decide, by decide, by decide,
   removeUnused_batching samplePackages sampleExec [batchA] [batchC] batchB "boom"
     [] ⟨samplePackages, [], []⟩ false none none none
     (by decide) (by decide) (by decide) (by decide) (by decide)⟩

/-- C6: `fixIssues` attempts exactly the requested categories (all four when
the `all` flag is set), records one entry per attempted category whose
success flag and error message reflect only that category's own outcome, and
the set of attempted categories never depends on any outcome, so a failure in
one category neither prevents the remaining categories from being attempted
nor aborts the overall command. -/
theorem fixIssues_per_category (opts : FixOptions) (prot prot' : List String)
    (r r' : DepcheckResult) (exec exec' : List String → Option String)
    (u a d u' a' d' : Option String) :
    fixIssues opts prot r exec u a d
      = (requestedCategories opts).map (fun c =>
          { type := categoryName c,
            success := (categoryOutcome opts prot r exec u a d c).isNone,
            error := categoryOutcome opts prot r exec u a d c })
    ∧ (fixIssues ⟨opts.unused, opts.outdated, opts.vulnerabilities, opts.duplicates,
        true, opts.force⟩ prot r exec u a d).map (fun e => e.type)
        = ["unused", "outdated", "vulnerabilities", "duplicates"]
    ∧ (fixIssues opts prot r exec u a d).map (fun e => e.type)
        = (fixIssues opts prot' r' exec' u' a' d').map (fun e => e.type) := by
  obtain ⟨ou, oo, ov, od, oa, ofc⟩ := opts
  refine ⟨?_, ?_, ?_⟩ <;>
    cases oa <;> cases ou <;> cases oo <;> cases ov <;> cases od <;>
      simp [fixIssues, requestedCategories, categoryName, categoryOutcome]

/-- C2: `findDuplicates` reports one `DuplicateEntry` exactly for each name
whose set of distinct resolved versions across all visited tree positions has
more than one member, carrying the distinct versions in insertion order and
their number as `count` (via the specification-side first-occurrence grouping
`groupVersions`); in particular, for a lockfile with lodash resolved to
`4.17.20` at two nested positions and `4.17.21` at a third, the result is
exactly one entry for lodash with versions `["4.17.20", "4.17.21"]` and
count 2. -/
theorem findDuplicates_spec :
    (∀ lock : LockData,
      (findDuplicates (some lock)).duplicates
        = ((groupVersions (lockOcc lock) []).filter (fun p => decide (1 < p.2.length))).map
            (fun p => ⟨p.1, p.2, p.2.length⟩))
    ∧ findDuplicates (some scenarioB)
        = { duplicates := [⟨"lodash", ["4.17.20", "4.17.21"], 2⟩],
            totalPackages := some 5, lockFileExists := true } := by
  constructor
  · intro lock
    rw [findDuplicates_eval]
  · rw [findDuplicates_eval]
    have hocc : lockOcc scenarioB
        = [("a", "1.0.0"), ("lodash", "4.17.20"), ("b", "1.0.0"), ("lodash", "4.17.20"),
           ("lodash", "4.17.21")] := by
      simp [lockOcc, lockRoot, scenarioB, occList]
    rw [hocc]
    decide

/-- C10: a node whose entry has no version field contributes nothing itself
(neither to `totalPackages` nor to the versions map) but its nested
dependencies subtree is still recursively visited; concretely, a versioned
lodash below a versionless wrapper is counted and participates in duplicate
detection against a top-level lodash. -/
theorem versionless_node_subtree (name : String) (ds rest : List (String × DepInfo))
    (st : ScanState) :
    scanDeps ((name, .mk none (some ds)) :: rest) st = scanDeps rest (scanDeps ds st)
    ∧ scanDeps ((name, .mk none none) :: rest) st = scanDeps rest st
    ∧ occList ((name, .mk none (some ds)) :: rest) = occList ds ++ occList rest
    ∧ findDuplicates (some scenarioNested)
        = { duplicates := [⟨"lodash", ["4.17.20", "4.17.21"], 2⟩],
            totalPackages := some 2, lockFileExists := true } := by
  refine ⟨by simp [scanDeps], by simp [scanDeps], by simp [occList], ?_⟩
  rw [findDuplicates_eval]
  have hocc : lockOcc scenarioNested = [("lodash", "4.17.20"), ("lodash", "4.17.21")] := by
    simp [lockOcc, lockRoot, scenarioNested, occList]
  rw [hocc]
  decide

/-- Counterexample for C7: with no lockfile, `findDuplicates` returns the
early-exit object whose `totalPackages` field is absent (undefined), not the
integer 0 required by the claim's contract reading. -/
theorem findDuplicates_no_lockfile_counterexample :
    findDuplicates none
      = { duplicates := [], totalPackages := none, lockFileExists := false }
    ∧ ((findDuplicates none).totalPackages == some 0) = false :=
  ⟨rfl, rfl⟩

/-- C7 as amended: with no lockfile, `findDuplicates` returns without error a
result with `lockFileExists = false` and an empty duplicates sequence, and
leaves `totalPackages` undefined. -/
theorem findDuplicates_no_lockfile :
    (findDuplicates none).lockFileExists = false
    ∧ (findDuplicates none).duplicates = []
    ∧ (findDuplicates none).totalPackages = none :=
  ⟨rfl, rfl, rfl⟩
